import Mathlib

/-!
Shallow embedding of the scheduler/persistence/dispatch core of
`bot.py` (GroupReminderBot): the SQLite-backed tables, the APScheduler
job table, startup reconciliation (`schedule_loaded_jobs`), event
creation (`event_create`), one-shot dispatch (`send_reminder`), RSVP
upsert (`RSVPView._set_status` / `update_announcement_message`) and the
delete commands (`event_delete`, `remind_delete`).

Modelling conventions:
* Time is an integer number of minutes since an arbitrary UTC epoch
  (`datetime` instants and `timedelta(minutes=m)` arithmetic).
* APScheduler job ids are rendered as the f-strings `"event:{id}"`,
  `"event:{id}:lead:{m}"`, `"reminder:{id}"`; these three formats never
  collide, so they are modelled by the inductive `JobId` (with
  `JobId.render` giving the literal string).
* `add_job(..., replace_existing=True)` is replace-then-append on an
  association list; `remove_job` inside `try/except pass` is a filter.
* External collaborators (Discord delivery, apscheduler `CronTrigger`
  field validation) are parameters: a `DeliveryEnv` record of outcomes
  and a `fieldOk : String → Bool` oracle for cron field validity.
* SQL text columns holding structured data are modelled structurally:
  `when_utc` an `Option Time`, `cron` a list of whitespace-separated
  fields, `lead_minutes` an `Option (List Int)` (the comma-separated
  integers; parsing re-applies the source's dedup/sort/filter).
-/

namespace Bot

/-- Instants, in minutes since an arbitrary UTC epoch. -/
abbrev Time := Int

/-- In-memory scheduler job identifiers, derived deterministically from
the item kind and row id exactly as the f-strings in `bot.py`
(`f"event:{ev_id}"`, `f"event:{ev_id}:lead:{m}"`, `f"reminder:{rem_id}"`). -/
inductive JobId
  | event (id : Nat)
  | eventLead (id : Nat) (m : Int)
  | reminder (id : Nat)
  deriving DecidableEq, Repr

/-- The literal job-id string used by the source for each `JobId`. -/
def JobId.render : JobId → String
  | .event i => "event:" ++ toString i
  | .eventLead i m => "event:" ++ toString i ++ ":lead:" ++ toString m
  | .reminder i => "reminder:" ++ toString i

/-- A validated five-field cron specification (the arguments handed to
`CronTrigger(minute=..., hour=..., day=..., month=..., day_of_week=...)`). -/
structure CronSpec where
  minute : String
  hour : String
  dom : String
  month : String
  dow : String
  deriving DecidableEq, Repr

/-- The callback captured by a scheduled job (the lambdas passed to
`scheduler.add_job`, with their default-argument snapshots). -/
inductive JobAction
  | sendEvent (guildId : Nat) (channelId : Nat) (title : String) (roleId : Option Nat)
  | sendReminder (remId : Nat)
  deriving DecidableEq, Repr

/-- Trigger of a job: `DateTrigger(run_date=...)` or `CronTrigger(...)`. -/
inductive Trigger
  | date (runAt : Time)
  | cron (spec : CronSpec)
  deriving DecidableEq, Repr

structure Job where
  trigger : Trigger
  action : JobAction
  deriving DecidableEq, Repr

/-- The APScheduler job store: an association list from job id to job. -/
abbrev JobTable := List (JobId × Job)

/-- `scheduler.add_job(..., id=jid, replace_existing=True)`: any existing
job under the same id is replaced. -/
def add_job (tbl : JobTable) (jid : JobId) (j : Job) : JobTable :=
  tbl.filter (fun p => p.1 != jid) ++ [(jid, j)]

/-- `scheduler.remove_job(jid)` wrapped in `try: ... except Exception: pass`:
removes the job if present, and the absence of the id is never an error. -/
def tryRemoveJob (tbl : JobTable) (jid : JobId) : JobTable :=
  tbl.filter (fun p => p.1 != jid)

/-- Number of jobs stored under a given id. -/
def jobCount (tbl : JobTable) (jid : JobId) : Nat :=
  tbl.countP (fun p => p.1 == jid)

/-- Whether some job is stored under a given id. -/
def hasJob (tbl : JobTable) (jid : JobId) : Bool :=
  tbl.any (fun p => p.1 == jid)

/-- Job ids are pairwise distinct in the table. -/
def keysNodup (tbl : JobTable) : Prop :=
  (tbl.map Prod.fst).Nodup

/-- One row of the `events` table (`init_db`). -/
structure EventRow where
  id : Nat
  guild_id : Nat
  channel_id : Nat
  title : String
  when_utc : Option Time
  cron : Option (List String)
  mention_role_id : Option Nat
  created_by : Nat
  created_at : Time
  lead_minutes : Option (List Int)
  message_id : Option Nat
  deriving DecidableEq, Repr

/-- One row of the `reminders` table (`init_db`). -/
structure ReminderRow where
  id : Nat
  guild_id : Option Nat
  channel_id : Option Nat
  user_id : Nat
  message : String
  when_utc : Time
  mention_role_id : Option Nat
  created_at : Time
  deriving DecidableEq, Repr

/-- One row of the `event_rsvps` table (`init_db`); primary key is
`(event_id, user_id)`. -/
structure RSVPRow where
  event_id : Nat
  user_id : Nat
  status : String
  updated_at : Time
  deriving DecidableEq, Repr

/-- The durable store (`remindbot.db`). -/
structure DB where
  events : List EventRow
  reminders : List ReminderRow
  rsvps : List RSVPRow
  deriving DecidableEq, Repr

/-- `sorted({int(x.strip()) for x in s.split(',') if x.strip()}, reverse=True)`
followed by `[m for m in mins_list if m > 0]`: deduplicate, sort
descending, keep only positive offsets.  Used identically by
`event_create` and `schedule_loaded_jobs`. -/
def parseLeadMinutes (xs : List Int) : List Int :=
  ((xs.dedup).insertionSort (fun a b => b ≤ a)).filter (fun m => 0 < m)

/-- The lead-scheduling loop shared (verbatim, up to captured variables)
by `event_create` and `schedule_loaded_jobs`: for each offset `m`, if
`run_dt - timedelta(minutes=m)` is strictly in the future, install a
date job `event:{id}:lead:{m}` whose payload bakes in the remaining
minutes. -/
def scheduleLeadJobs (now : Time) (evId : Nat) (guildId channelId : Nat)
    (title : String) (roleId : Option Nat) (runDt : Time)
    (ms : List Int) (tbl : JobTable) : JobTable :=
  ms.foldl
    (fun t m =>
      if now < runDt - m then
        add_job t (.eventLead evId m)
          ⟨.date (runDt - m),
           .sendEvent guildId channelId
             (title ++ " starts in " ++ toString m ++ " min") roleId⟩
      else t)
    tbl

/-- Body of the first reconciliation loop of `schedule_loaded_jobs`
(rows of `SELECT ... FROM events WHERE when_utc IS NOT NULL`): install
the primary date job if the instant is strictly in the future, then the
lead jobs parsed from `lead_minutes`. -/
def scheduleAbsoluteRow (now : Time) (tbl : JobTable) (ev : EventRow) : JobTable :=
  match ev.when_utc with
  | none => tbl
  | some runDt =>
    let tbl :=
      if now < runDt then
        add_job tbl (.event ev.id)
          ⟨.date runDt, .sendEvent ev.guild_id ev.channel_id ev.title ev.mention_role_id⟩
      else tbl
    match ev.lead_minutes with
    | none => tbl
    | some xs =>
      scheduleLeadJobs now ev.id ev.guild_id ev.channel_id ev.title
        ev.mention_role_id runDt (parseLeadMinutes xs) tbl

/-- `minute, hour, dom, month, dow = cron_expr.split()` followed by the
`CronTrigger(...)` constructor: fails (raises) unless there are exactly
five fields and every field passes apscheduler's validation, modelled
by the oracle `fieldOk`. -/
def cronParse (fieldOk : String → Bool) (fields : List String) : Option CronSpec :=
  match fields with
  | [mi, h, dom, mo, dow] =>
    if fieldOk mi && fieldOk h && fieldOk dom && fieldOk mo && fieldOk dow then
      some ⟨mi, h, dom, mo, dow⟩
    else none
  | _ => none

/-- Body of the second reconciliation loop of `schedule_loaded_jobs`
(rows of `SELECT ... FROM events WHERE cron IS NOT NULL`): install a
recurring cron job under `event:{id}`; a malformed expression is logged
(`log.warning`) and the row is skipped. -/
def scheduleCronRow (fieldOk : String → Bool) (tbl : JobTable) (ev : EventRow) : JobTable :=
  match ev.cron with
  | none => tbl
  | some fields =>
    match cronParse fieldOk fields with
    | some spec =>
      add_job tbl (.event ev.id)
        ⟨.cron spec, .sendEvent ev.guild_id ev.channel_id ev.title ev.mention_role_id⟩
    | none => tbl

/-- Body of the third reconciliation loop of `schedule_loaded_jobs`
(rows of `SELECT id, when_utc FROM reminders`): install the reminder's
date job if still in the future. -/
def scheduleReminderRow (now : Time) (tbl : JobTable) (r : ReminderRow) : JobTable :=
  if now < r.when_utc then
    add_job tbl (.reminder r.id) ⟨.date r.when_utc, .sendReminder r.id⟩
  else tbl

/-- `schedule_loaded_jobs()`: the startup reconciliation.  Runs the three
loops in source order over the freshly started scheduler. -/
def schedule_loaded_jobs (now : Time) (fieldOk : String → Bool)
    (db : DB) (tbl : JobTable) : JobTable :=
  db.reminders.foldl (scheduleReminderRow now)
    (db.events.foldl (scheduleCronRow fieldOk)
      (db.events.foldl (scheduleAbsoluteRow now) tbl))

/-- `AUTOINCREMENT` id assignment: strictly larger than every stored id. -/
def nextEventId (db : DB) : Nat :=
  (db.events.map EventRow.id).foldl max 0 + 1

/-- The ephemeral responses `event_create` can send to the caller. -/
inductive CreateResult
  | needWhenOrCron
  | cantParseTime
  | badLeadMinutes
  | createdAbsolute
  | createdCron
  | badCron
  deriving DecidableEq, Repr

/-- Continuation of `event_create` after `lead_list` has been computed:
the INSERT (committed immediately), then the absolute-or-cron branch. -/
def event_create_afterLead (now : Time) (fieldOk : String → Bool)
    (guildId channelId userId : Nat) (title : String) (roleId : Option Nat)
    (whenUtc : Option Time) (cronArg : Option (List String))
    (leadList : List Int) (msgId : Nat)
    (db : DB) (tbl : JobTable) : CreateResult × DB × JobTable :=
  let evId := nextEventId db
  let row : EventRow :=
    { id := evId, guild_id := guildId, channel_id := channelId, title := title,
      when_utc := whenUtc, cron := cronArg, mention_role_id := roleId,
      created_by := userId, created_at := now,
      lead_minutes := if leadList.isEmpty then none else some leadList,
      message_id := none }
  let db : DB := { db with events := db.events ++ [row] }
  match whenUtc with
  | some runDt =>
    -- primary date job, installed with no future check at creation time
    let tbl := add_job tbl (.event evId)
      ⟨.date runDt, .sendEvent guildId channelId title roleId⟩
    let tbl := scheduleLeadJobs now evId guildId channelId title roleId runDt leadList tbl
    -- announce_event: posts the RSVP embed and stores its message id
    let db : DB := { db with events := db.events.map (fun e =>
        if e.id == evId then { e with message_id := some msgId } else e) }
    (.createdAbsolute, db, tbl)
  | none =>
    match cronArg with
    | some fields =>
      match cronParse fieldOk fields with
      | some spec =>
        (.createdCron, db,
          add_job tbl (.event evId)
            ⟨.cron spec, .sendEvent guildId channelId title roleId⟩)
      | none => (.badCron, db, tbl)   -- row already committed, no job installed
    | none => (.needWhenOrCron, db, tbl) -- unreachable: guarded in event_create

/-- Continuation of `event_create` after the `when` argument has been
resolved to `whenUtc : Option Time` (the value bound to `when_utc_iso`). -/
def event_create_afterWhen (now : Time) (fieldOk : String → Bool)
    (guildId channelId userId : Nat) (title : String) (roleId : Option Nat)
    (whenUtc : Option Time) (cronArg : Option (List String))
    (leadArg : Option (Option (List Int))) (msgId : Nat)
    (db : DB) (tbl : JobTable) : CreateResult × DB × JobTable :=
  match leadArg with
  | some none => (.badLeadMinutes, db, tbl)
  | some (some xs) => event_create_afterLead now fieldOk guildId channelId userId
      title roleId whenUtc cronArg (parseLeadMinutes xs) msgId db tbl
  | none => event_create_afterLead now fieldOk guildId channelId userId
      title roleId whenUtc cronArg [] msgId db tbl

/-- `/event create` (`event_create`).  External parsing is abstracted:
`whenArg = some none` means `when` was supplied but `parse_human_time`
returned `None`; `leadArg = some none` means `lead_minutes` was supplied
but an `int(...)` conversion raised.  `msgId` is the id of the Discord
message posted by `announce_event` (which stores it in `message_id`).
Source order is preserved: argument guard, time parse, lead parse,
INSERT-and-commit, then scheduling, and the cron expression is only
validated after the row is committed. -/
def event_create (now : Time) (fieldOk : String → Bool)
    (guildId channelId userId : Nat) (title : String) (roleId : Option Nat)
    (whenArg : Option (Option Time)) (cronArg : Option (List String))
    (leadArg : Option (Option (List Int))) (msgId : Nat)
    (db : DB) (tbl : JobTable) : CreateResult × DB × JobTable :=
  if whenArg.isNone && cronArg.isNone then (.needWhenOrCron, db, tbl)
  else
    match whenArg with
    | some none => (.cantParseTime, db, tbl)
    | some (some t) => event_create_afterWhen now fieldOk guildId channelId userId
        title roleId (some t) cronArg leadArg msgId db tbl
    | none => event_create_afterWhen now fieldOk guildId channelId userId
        title roleId none cronArg leadArg msgId db tbl

/-- Outcomes of the external Discord calls made by `send_reminder`. -/
structure DeliveryEnv where
  /-- `bot.get_guild` and `guild.get_channel` resolve to a `TextChannel`. -/
  channelResolvable : Bool
  /-- `channel.send` raises. -/
  channelSendRaises : Bool
  /-- `bot.fetch_user` raises. -/
  fetchUserRaises : Bool
  /-- `bot.fetch_user` returns a truthy user. -/
  fetchedUserSome : Bool
  /-- `user.send` raises. -/
  userSendRaises : Bool
  deriving DecidableEq, Repr

/-- An exception escaping a dispatcher coroutine. -/
inductive DeliveryError
  | unavailable
  deriving DecidableEq, Repr

/-- The delivery section of `send_reminder`: channel path (`if channel_id:`)
or DM path.  An unresolvable guild/channel or a falsy fetched user is
silently skipped (no exception); a raising Discord call is an error. -/
def reminderDeliveryAttempt (env : DeliveryEnv) (r : ReminderRow) :
    Except DeliveryError Unit :=
  if r.channel_id.isSome then
    if r.guild_id.isSome && env.channelResolvable then
      if env.channelSendRaises then .error .unavailable else .ok ()
    else .ok ()              -- unresolvable channel: silently skipped, no raise
  else
    if env.fetchUserRaises then .error .unavailable
    else if env.fetchedUserSome then
      if env.userSendRaises then .error .unavailable else .ok ()
    else .ok ()

/-- `send_reminder(reminder_id)`: load the row (absent → no-op); attempt
delivery to the channel or the user — note the source wraps none of the
awaits in `try/except`, so a raising Discord call propagates and the
final `DELETE` is never reached; otherwise delete the row. -/
def send_reminder (env : DeliveryEnv) (db : DB) (remId : Nat) : Except DeliveryError DB :=
  match db.reminders.find? (fun r => r.id == remId) with
  | none => .ok db
  | some r =>
    match reminderDeliveryAttempt env r with
    | .error e => .error e   -- exception propagates; the DELETE never runs
    | .ok _ =>
      .ok { db with reminders := db.reminders.filter (fun r => r.id != remId) }

/-- Python-level failures of the RSVP re-render path. -/
inductive PyError
  /-- `update_announcement_message(self.event_id)` supplies one argument
  to a two-parameter function: `TypeError` at the call site. -/
  | typeErrorMissingArg
  /-- the body of `update_announcement_message` references the undefined
  name `get_rsvp_counts`: `NameError`. -/
  | nameErrorGetRsvpCounts
  deriving DecidableEq, Repr

/-- The `INSERT ... ON CONFLICT(event_id, user_id) DO UPDATE` statement
of `RSVPView._set_status`, committed before anything else happens. -/
def upsert_rsvp (now : Time) (db : DB) (eventId userId : Nat) (status : String) : DB :=
  if db.rsvps.any (fun r => r.event_id == eventId && r.user_id == userId) then
    { db with rsvps := db.rsvps.map (fun r =>
        if r.event_id == eventId && r.user_id == userId then
          { r with status := status, updated_at := now }
        else r) }
  else
    { db with rsvps := db.rsvps ++ [⟨eventId, userId, status, now⟩] }

/-- `update_announcement_message(event_id, message)` as defined at line
256: it loads the event row (absent → return), then immediately calls
`get_rsvp_counts(event_id)` — a name defined nowhere in the module (the
helper is called `compute_rsvp_counts`) — so the call raises `NameError`
whenever the row exists, before reading `message_id` or editing
anything. -/
def update_announcement_message (db : DB) (eventId : Nat) (_message : Nat) :
    Except PyError DB :=
  match db.events.find? (fun e => e.id == eventId) with
  | none => .ok db
  | some _ => .error .nameErrorGetRsvpCounts

/-- `RSVPView._set_status`: the upsert is committed, then the source
evaluates `await update_announcement_message(self.event_id)` — a call
with one argument to a function requiring `(event_id, message)` — which
raises `TypeError` before the function body (and before the ephemeral
confirmation) runs.  The committed upsert survives the exception. -/
def set_status (now : Time) (db : DB) (eventId userId : Nat) (status : String) :
    DB × Option PyError :=
  (upsert_rsvp now db eventId userId status, some .typeErrorMissingArg)

/-- Outcome reported by the delete commands. -/
inductive DeleteResult
  | deleted
  | notFound
  deriving DecidableEq, Repr

/-- `/event delete` (`event_delete`): best-effort removal of the primary
job, then — only when the row exists in the invoking guild — removal of
every lead job derived from the stored `lead_minutes`, then the scoped
SQL `DELETE` (which cascades to `event_rsvps`). -/
def event_delete (guildId : Nat) (db : DB) (tbl : JobTable) (eventId : Nat) :
    DeleteResult × DB × JobTable :=
  let tbl := tryRemoveJob tbl (.event eventId)
  let tbl :=
    match db.events.find? (fun e => e.id == eventId && e.guild_id == guildId) with
    | some ev =>
      match ev.lead_minutes with
      | some xs => xs.dedup.foldl (fun t m => tryRemoveJob t (.eventLead eventId m)) tbl
      | none => tbl
    | none => tbl
  let matched := db.events.any (fun e => e.id == eventId && e.guild_id == guildId)
  let db : DB := { db with
    events := db.events.filter (fun e => !(e.id == eventId && e.guild_id == guildId)),
    rsvps := if matched then db.rsvps.filter (fun r => r.event_id != eventId) else db.rsvps }
  ((if matched then .deleted else .notFound), db, tbl)

/-- `/remind delete` (`remind_delete`): best-effort removal of the job,
then the user-scoped SQL `DELETE`. -/
def remind_delete (userId : Nat) (db : DB) (tbl : JobTable) (remId : Nat) :
    DeleteResult × DB × JobTable :=
  let tbl := tryRemoveJob tbl (.reminder remId)
  let matched := db.reminders.any (fun r => r.id == remId && r.user_id == userId)
  let db : DB := { db with
    reminders := db.reminders.filter (fun r => !(r.id == remId && r.user_id == userId)) }
  ((if matched then .deleted else .notFound), db, tbl)

/-- The lead offsets the source derives from a stored row. -/
def leadsOf (ev : EventRow) : List Int :=
  match ev.lead_minutes with
  | some xs => parseLeadMinutes xs
  | none => []

/-- Number of RSVP rows stored under a `(event_id, user_id)` key. -/
def rsvpKeyCount (db : DB) (eventId userId : Nat) : Nat :=
  db.rsvps.countP (fun r => r.event_id == eventId && r.user_id == userId)

/-- The `PRIMARY KEY (event_id, user_id)` invariant of `event_rsvps`:
at most one row per key. -/
def RsvpUnique (db : DB) : Prop :=
  ∀ eventId userId, rsvpKeyCount db eventId userId ≤ 1

/-! ### Basic job-table lemmas -/

theorem jobCount_add_job_self (tbl : JobTable) (jid : JobId) (j : Job) :
    jobCount (add_job tbl jid j) jid = 1 := by
  unfold jobCount add_job
  rw [List.countP_append, List.countP_filter]
  have h0 : (tbl.countP fun a => a.1 == jid && a.1 != jid) = 0 := by
    rw [List.countP_eq_zero]
    intro a _ h
    simp only [bne, Bool.and_eq_true, Bool.not_eq_true'] at h
    exact absurd h.1 (by simp [h.2])
  rw [h0]
  simp

theorem jobCount_add_job_ne (tbl : JobTable) (jid : JobId) (j : Job)
    (k : JobId) (h : k ≠ jid) :
    jobCount (add_job tbl jid j) k = jobCount tbl k := by
  unfold jobCount add_job
  rw [List.countP_append, List.countP_filter]
  have h1 : (tbl.countP fun a => a.1 == k && a.1 != jid) = tbl.countP fun a => a.1 == k := by
    apply List.countP_congr
    intro a _
    constructor
    · intro hx
      exact (Bool.and_eq_true _ _ ▸ hx).1
    · intro hx
      have : a.1 = k := by simpa using hx
      simp [this, h]

  rw [h1]
  have h2 : (List.countP (fun a => a.1 == k) [(jid, j)]) = 0 := by
    simp [Ne.symm h]
  rw [h2]
  rfl

theorem jobCount_tryRemoveJob_self (tbl : JobTable) (jid : JobId) :
    jobCount (tryRemoveJob tbl jid) jid = 0 := by
  unfold jobCount tryRemoveJob
  rw [List.countP_filter, List.countP_eq_zero]
  intro a _ h
  simp only [bne, Bool.and_eq_true, Bool.not_eq_true'] at h
  exact absurd h.1 (by simp [h.2])

theorem jobCount_tryRemoveJob_ne (tbl : JobTable) (jid : JobId)
    (k : JobId) (h : k ≠ jid) :
    jobCount (tryRemoveJob tbl jid) k = jobCount tbl k := by
  unfold jobCount tryRemoveJob
  rw [List.countP_filter]
  apply List.countP_congr
  intro a _
  constructor
  · intro hx
    exact (Bool.and_eq_true _ _ ▸ hx).1
  · intro hx
    have : a.1 = k := by simpa using hx
    simp [this, h]

theorem jobCount_tryRemoveJob_le (tbl : JobTable) (jid : JobId) (k : JobId) :
    jobCount (tryRemoveJob tbl jid) k ≤ jobCount tbl k := by
  unfold jobCount tryRemoveJob
  rw [List.countP_filter]
  apply List.countP_mono_left
  intro a _ hx
  exact (Bool.and_eq_true _ _ ▸ hx).1

/-! ### Lead-offset parsing lemmas -/

theorem mem_parseLeadMinutes (m : Int) (xs : List Int) :
    m ∈ parseLeadMinutes xs ↔ m ∈ xs ∧ 0 < m := by
  unfold parseLeadMinutes
  rw [List.mem_filter, (List.perm_insertionSort _ _).mem_iff, List.mem_dedup]
  simp

theorem parseLeadMinutes_nodup (xs : List Int) : (parseLeadMinutes xs).Nodup := by
  unfold parseLeadMinutes
  exact List.Nodup.filter _
    ((List.perm_insertionSort _ _).nodup_iff.mpr (List.nodup_dedup xs))

/-! ### Lead-scheduling loop lemmas -/

theorem jobCount_scheduleLeadJobs_ne (now : Time) (evId guildId channelId : Nat)
    (title : String) (roleId : Option Nat) (runDt : Time)
    (ms : List Int) (tbl : JobTable) (k : JobId)
    (h : ∀ m ∈ ms, k ≠ JobId.eventLead evId m) :
    jobCount (scheduleLeadJobs now evId guildId channelId title roleId runDt ms tbl) k =
      jobCount tbl k := by
  induction ms generalizing tbl with
  | nil => rfl
  | cons x rest ih =>
    unfold scheduleLeadJobs
    rw [List.foldl_cons]
    show jobCount (scheduleLeadJobs now evId guildId channelId title roleId runDt rest _) k = _
    rw [ih _ (fun m hm => h m (List.mem_cons_of_mem x hm))]
    split
    · exact jobCount_add_job_ne _ _ _ _ (h x (List.mem_cons_self x rest))
    · rfl

theorem jobCount_scheduleLeadJobs_self (now : Time) (evId guildId channelId : Nat)
    (title : String) (roleId : Option Nat) (runDt : Time)
    (ms : List Int) (tbl : JobTable) (m : Int) (hnd : ms.Nodup) :
    jobCount (scheduleLeadJobs now evId guildId channelId title roleId runDt ms tbl)
        (JobId.eventLead evId m) =
      if m ∈ ms ∧ now < runDt - m then 1
      else jobCount tbl (JobId.eventLead evId m) := by
  induction ms generalizing tbl with
  | nil => simp [scheduleLeadJobs]
  | cons x rest ih =>
    have hx : x ∉ rest := (List.nodup_cons.mp hnd).1
    have hrest : rest.Nodup := (List.nodup_cons.mp hnd).2
    unfold scheduleLeadJobs
    rw [List.foldl_cons]
    show jobCount (scheduleLeadJobs now evId guildId channelId title roleId runDt rest _)
        (JobId.eventLead evId m) = _
    by_cases hmx : m = x
    · subst hmx
      rw [jobCount_scheduleLeadJobs_ne _ _ _ _ _ _ _ _ _ _
        (fun m' hm' heq => hx (by injection heq with _ h2; rw [h2]; exact hm'))]
      by_cases hlt : now < runDt - m
      · rw [if_pos hlt, if_pos ⟨List.mem_cons_self m rest, hlt⟩]
        exact jobCount_add_job_self _ _ _
      · rw [if_neg hlt, if_neg (fun hc => hlt hc.2)]
    · rw [ih _ hrest]
      have hkey : JobId.eventLead evId m ≠ JobId.eventLead evId x := by
        intro heq; injection heq with _ h2; exact hmx h2
      have hstep : jobCount
          (if now < runDt - x then
            add_job tbl (JobId.eventLead evId x)
              ⟨.date (runDt - x),
               .sendEvent guildId channelId
                 (title ++ " starts in " ++ toString x ++ " min") roleId⟩
          else tbl) (JobId.eventLead evId m) = jobCount tbl (JobId.eventLead evId m) := by
        split
        · exact jobCount_add_job_ne _ _ _ _ hkey
        · rfl
      rw [hstep]
      simp [List.mem_cons, hmx]

/-! ### Row lemmas for the three reconciliation loops -/

theorem jobCount_scheduleAbsoluteRow_ne (now : Time) (tbl : JobTable) (ev : EventRow)
    (k : JobId) (h1 : k ≠ JobId.event ev.id) (h2 : ∀ m, k ≠ JobId.eventLead ev.id m) :
    jobCount (scheduleAbsoluteRow now tbl ev) k = jobCount tbl k := by
  unfold scheduleAbsoluteRow
  cases hw : ev.when_utc with
  | none => rfl
  | some runDt =>
    have hbase : ∀ tbl' : JobTable,
        jobCount (if now < runDt then
          add_job tbl' (JobId.event ev.id)
            ⟨.date runDt, .sendEvent ev.guild_id ev.channel_id ev.title ev.mention_role_id⟩
        else tbl') k = jobCount tbl' k := by
      intro tbl'
      split
      · exact jobCount_add_job_ne _ _ _ _ h1
      · rfl
    cases hl : ev.lead_minutes with
    | none => exact hbase tbl
    | some xs =>
      rw [jobCount_scheduleLeadJobs_ne _ _ _ _ _ _ _ _ _ _ (fun m _ => h2 m)]
      exact hbase tbl

theorem jobCount_scheduleAbsoluteRow_event (now : Time) (tbl : JobTable) (ev : EventRow)
    (t : Time) (ht : ev.when_utc = some t) :
    jobCount (scheduleAbsoluteRow now tbl ev) (JobId.event ev.id) =
      if now < t then 1 else jobCount tbl (JobId.event ev.id) := by
  unfold scheduleAbsoluteRow
  rw [ht]
  have hlead : ∀ tbl' : JobTable,
      jobCount (match ev.lead_minutes with
        | none => tbl'
        | some xs =>
          scheduleLeadJobs now ev.id ev.guild_id ev.channel_id ev.title
            ev.mention_role_id t (parseLeadMinutes xs) tbl') (JobId.event ev.id) =
        jobCount tbl' (JobId.event ev.id) := by
    intro tbl'
    cases ev.lead_minutes with
    | none => rfl
    | some xs =>
      exact jobCount_scheduleLeadJobs_ne _ _ _ _ _ _ _ _ _ _ (fun m _ h => JobId.noConfusion h)
  rw [hlead]
  split
  · exact jobCount_add_job_self _ _ _
  · rfl

theorem jobCount_scheduleAbsoluteRow_event_of_none (now : Time) (tbl : JobTable)
    (ev : EventRow) (k : JobId) (ht : ev.when_utc = none) :
    jobCount (scheduleAbsoluteRow now tbl ev) k = jobCount tbl k := by
  unfold scheduleAbsoluteRow
  rw [ht]

theorem jobCount_scheduleAbsoluteRow_lead (now : Time) (tbl : JobTable) (ev : EventRow)
    (t : Time) (m : Int) (ht : ev.when_utc = some t) :
    jobCount (scheduleAbsoluteRow now tbl ev) (JobId.eventLead ev.id m) =
      if m ∈ leadsOf ev ∧ now < t - m then 1
      else jobCount tbl (JobId.eventLead ev.id m) := by
  unfold scheduleAbsoluteRow
  rw [ht]
  have hbase : jobCount (if now < t then
      add_job tbl (JobId.event ev.id)
        ⟨.date t, .sendEvent ev.guild_id ev.channel_id ev.title ev.mention_role_id⟩
    else tbl) (JobId.eventLead ev.id m) = jobCount tbl (JobId.eventLead ev.id m) := by
    split
    · exact jobCount_add_job_ne _ _ _ _ (fun h => JobId.noConfusion h)
    · rfl
  unfold leadsOf
  cases hl : ev.lead_minutes with
  | none => simpa using hbase
  | some xs =>
    rw [jobCount_scheduleLeadJobs_self _ _ _ _ _ _ _ _ _ _ (parseLeadMinutes_nodup xs), hbase]

theorem jobCount_scheduleCronRow_ne (fieldOk : String → Bool) (tbl : JobTable)
    (ev : EventRow) (k : JobId) (h : k ≠ JobId.event ev.id) :
    jobCount (scheduleCronRow fieldOk tbl ev) k = jobCount tbl k := by
  unfold scheduleCronRow
  cases hc : ev.cron with
  | none => rfl
  | some fields =>
    cases hp : cronParse fieldOk fields with
    | none => simp only [hp]
    | some spec =>
      simp only [hp]
      exact jobCount_add_job_ne _ _ _ _ h

theorem jobCount_scheduleCronRow_event (fieldOk : String → Bool) (tbl : JobTable)
    (ev : EventRow) (fields : List String) (hc : ev.cron = some fields) :
    jobCount (scheduleCronRow fieldOk tbl ev) (JobId.event ev.id) =
      if (cronParse fieldOk fields).isSome then 1
      else jobCount tbl (JobId.event ev.id) := by
  unfold scheduleCronRow
  rw [hc]
  cases hp : cronParse fieldOk fields with
  | none => simp only [hp, Option.isSome_none, Bool.false_eq_true, if_false]
  | some spec =>
    simp only [hp, Option.isSome_some, if_true]
    exact jobCount_add_job_self tbl (JobId.event ev.id) _

theorem jobCount_scheduleCronRow_event_of_none (fieldOk : String → Bool) (tbl : JobTable)
    (ev : EventRow) (k : JobId) (hc : ev.cron = none) :
    jobCount (scheduleCronRow fieldOk tbl ev) k = jobCount tbl k := by
  unfold scheduleCronRow
  rw [hc]

theorem jobCount_scheduleReminderRow_ne (now : Time) (tbl : JobTable) (r : ReminderRow)
    (k : JobId) (h : k ≠ JobId.reminder r.id) :
    jobCount (scheduleReminderRow now tbl r) k = jobCount tbl k := by
  unfold scheduleReminderRow
  split
  · exact jobCount_add_job_ne _ _ _ _ h
  · rfl

/-! ### Loop-level reconciliation lemmas -/

theorem jobCount_absLoop_frame (now : Time) (rows : List EventRow) (tbl : JobTable)
    (k : JobId)
    (h : ∀ ev ∈ rows, k ≠ JobId.event ev.id ∧ ∀ m, k ≠ JobId.eventLead ev.id m) :
    jobCount (rows.foldl (scheduleAbsoluteRow now) tbl) k = jobCount tbl k := by
  induction rows generalizing tbl with
  | nil => rfl
  | cons r rest ih =>
    rw [List.foldl_cons, ih _ (fun ev hm => h ev (List.mem_cons_of_mem r hm))]
    exact jobCount_scheduleAbsoluteRow_ne now tbl r k
      (h r (List.mem_cons_self r rest)).1 (h r (List.mem_cons_self r rest)).2

theorem jobCount_absLoop_event (now : Time) (rows : List EventRow) (tbl : JobTable)
    (ev : EventRow) (t : Time) (hmem : ev ∈ rows)
    (hnd : (rows.map EventRow.id).Nodup) (ht : ev.when_utc = some t) :
    jobCount (rows.foldl (scheduleAbsoluteRow now) tbl) (JobId.event ev.id) =
      if now < t then 1 else jobCount tbl (JobId.event ev.id) := by
  induction rows generalizing tbl with
  | nil => cases hmem
  | cons r rest ih =>
    rw [List.map_cons, List.nodup_cons] at hnd
    rcases List.mem_cons.mp hmem with heq | hmem'
    · subst heq
      rw [List.foldl_cons]
      rw [jobCount_absLoop_frame now rest _ _ (fun ev' hm' => by
        refine ⟨fun hk => ?_, fun m hk => JobId.noConfusion hk⟩
        injection hk with hid
        exact hnd.1 (hid ▸ List.mem_map_of_mem EventRow.id hm'))]
      exact jobCount_scheduleAbsoluteRow_event now tbl ev t ht
    · have hid : ev.id ≠ r.id := by
        intro hid
        exact hnd.1 (hid ▸ List.mem_map_of_mem EventRow.id hmem')
      rw [List.foldl_cons,
        ih (scheduleAbsoluteRow now tbl r) hmem' hnd.2,
        jobCount_scheduleAbsoluteRow_ne now tbl r _
          (fun hk => hid (by injection hk)) (fun m hk => JobId.noConfusion hk)]

theorem jobCount_absLoop_event_of_none (now : Time) (rows : List EventRow)
    (tbl : JobTable) (ev : EventRow) (hmem : ev ∈ rows)
    (hnd : (rows.map EventRow.id).Nodup) (ht : ev.when_utc = none) :
    jobCount (rows.foldl (scheduleAbsoluteRow now) tbl) (JobId.event ev.id) =
      jobCount tbl (JobId.event ev.id) := by
  induction rows generalizing tbl with
  | nil => cases hmem
  | cons r rest ih =>
    rw [List.map_cons, List.nodup_cons] at hnd
    rcases List.mem_cons.mp hmem with heq | hmem'
    · subst heq
      rw [List.foldl_cons]
      rw [jobCount_absLoop_frame now rest _ _ (fun ev' hm' => by
        refine ⟨fun hk => ?_, fun m hk => JobId.noConfusion hk⟩
        injection hk with hid
        exact hnd.1 (hid ▸ List.mem_map_of_mem EventRow.id hm'))]
      exact jobCount_scheduleAbsoluteRow_event_of_none now tbl ev _ ht
    · have hid : ev.id ≠ r.id := by
        intro hid
        exact hnd.1 (hid ▸ List.mem_map_of_mem EventRow.id hmem')
      rw [List.foldl_cons,
        ih (scheduleAbsoluteRow now tbl r) hmem' hnd.2,
        jobCount_scheduleAbsoluteRow_ne now tbl r _
          (fun hk => hid (by injection hk)) (fun m hk => JobId.noConfusion hk)]

theorem jobCount_absLoop_lead (now : Time) (rows : List EventRow) (tbl : JobTable)
    (ev : EventRow) (t : Time) (m : Int) (hmem : ev ∈ rows)
    (hnd : (rows.map EventRow.id).Nodup) (ht : ev.when_utc = some t) :
    jobCount (rows.foldl (scheduleAbsoluteRow now) tbl) (JobId.eventLead ev.id m) =
      if m ∈ leadsOf ev ∧ now < t - m then 1
      else jobCount tbl (JobId.eventLead ev.id m) := by
  induction rows generalizing tbl with
  | nil => cases hmem
  | cons r rest ih =>
    rw [List.map_cons, List.nodup_cons] at hnd
    rcases List.mem_cons.mp hmem with heq | hmem'
    · subst heq
      rw [List.foldl_cons]
      rw [jobCount_absLoop_frame now rest _ _ (fun ev' hm' => by
        refine ⟨fun hk => JobId.noConfusion hk, fun m' hk => ?_⟩
        injection hk with hid
        exact hnd.1 (hid ▸ List.mem_map_of_mem EventRow.id hm'))]
      exact jobCount_scheduleAbsoluteRow_lead now tbl ev t m ht
    · have hid : ev.id ≠ r.id := by
        intro hid
        exact hnd.1 (hid ▸ List.mem_map_of_mem EventRow.id hmem')
      rw [List.foldl_cons,
        ih (scheduleAbsoluteRow now tbl r) hmem' hnd.2,
        jobCount_scheduleAbsoluteRow_ne now tbl r _
          (fun hk => JobId.noConfusion hk) (fun m' hk => hid (by injection hk))]

theorem jobCount_cronLoop_frame (fieldOk : String → Bool) (rows : List EventRow)
    (tbl : JobTable) (k : JobId) (h : ∀ ev ∈ rows, k ≠ JobId.event ev.id) :
    jobCount (rows.foldl (scheduleCronRow fieldOk) tbl) k = jobCount tbl k := by
  induction rows generalizing tbl with
  | nil => rfl
  | cons r rest ih =>
    rw [List.foldl_cons, ih _ (fun ev hm => h ev (List.mem_cons_of_mem r hm))]
    exact jobCount_scheduleCronRow_ne fieldOk tbl r k (h r (List.mem_cons_self r rest))

theorem jobCount_cronLoop_event (fieldOk : String → Bool) (rows : List EventRow)
    (tbl : JobTable) (ev : EventRow) (fields : List String) (hmem : ev ∈ rows)
    (hnd : (rows.map EventRow.id).Nodup) (hc : ev.cron = some fields) :
    jobCount (rows.foldl (scheduleCronRow fieldOk) tbl) (JobId.event ev.id) =
      if (cronParse fieldOk fields).isSome then 1
      else jobCount tbl (JobId.event ev.id) := by
  induction rows generalizing tbl with
  | nil => cases hmem
  | cons r rest ih =>
    rw [List.map_cons, List.nodup_cons] at hnd
    rcases List.mem_cons.mp hmem with heq | hmem'
    · subst heq
      rw [List.foldl_cons]
      rw [jobCount_cronLoop_frame fieldOk rest _ _ (fun ev' hm' hk => by
        injection hk with hid
        exact hnd.1 (hid ▸ List.mem_map_of_mem EventRow.id hm'))]
      exact jobCount_scheduleCronRow_event fieldOk tbl ev fields hc
    · have hid : ev.id ≠ r.id := by
        intro hid
        exact hnd.1 (hid ▸ List.mem_map_of_mem EventRow.id hmem')
      rw [List.foldl_cons,
        ih (scheduleCronRow fieldOk tbl r) hmem' hnd.2,
        jobCount_scheduleCronRow_ne fieldOk tbl r _ (fun hk => hid (by injection hk))]

theorem jobCount_cronLoop_event_of_none (fieldOk : String → Bool) (rows : List EventRow)
    (tbl : JobTable) (ev : EventRow) (hmem : ev ∈ rows)
    (hnd : (rows.map EventRow.id).Nodup) (hc : ev.cron = none) :
    jobCount (rows.foldl (scheduleCronRow fieldOk) tbl) (JobId.event ev.id) =
      jobCount tbl (JobId.event ev.id) := by
  induction rows generalizing tbl with
  | nil => cases hmem
  | cons r rest ih =>
    rw [List.map_cons, List.nodup_cons] at hnd
    rcases List.mem_cons.mp hmem with heq | hmem'
    · subst heq
      rw [List.foldl_cons]
      rw [jobCount_cronLoop_frame fieldOk rest _ _ (fun ev' hm' hk => by
        injection hk with hid
        exact hnd.1 (hid ▸ List.mem_map_of_mem EventRow.id hm'))]
      exact jobCount_scheduleCronRow_event_of_none fieldOk tbl ev _ hc
    · have hid : ev.id ≠ r.id := by
        intro hid
        exact hnd.1 (hid ▸ List.mem_map_of_mem EventRow.id hmem')
      rw [List.foldl_cons,
        ih (scheduleCronRow fieldOk tbl r) hmem' hnd.2,
        jobCount_scheduleCronRow_ne fieldOk tbl r _ (fun hk => hid (by injection hk))]

theorem jobCount_remLoop_frame (now : Time) (rows : List ReminderRow) (tbl : JobTable)
    (k : JobId) (h : ∀ r ∈ rows, k ≠ JobId.reminder r.id) :
    jobCount (rows.foldl (scheduleReminderRow now) tbl) k = jobCount tbl k := by
  induction rows generalizing tbl with
  | nil => rfl
  | cons r rest ih =>
    rw [List.foldl_cons, ih _ (fun r' hm => h r' (List.mem_cons_of_mem r hm))]
    exact jobCount_scheduleReminderRow_ne now tbl r k (h r (List.mem_cons_self r rest))

/-! ### Claim C1 -/

/-- Claim C1: after reconciliation (`schedule_loaded_jobs`) over the
freshly started (empty) scheduler, every stored event with an Absolute
schedule (`when_utc` set, `cron` unset, matching the data model's
mutually exclusive `Absolute` variant) whose instant is strictly in the
future has exactly one primary job, stored under the deterministic key
`JobId.event ev.id` (rendering to the string `"event:{id}"`); an
Absolute event whose instant is not strictly in the future gets no
primary job. -/
theorem C1_reconciliation_primary_job (now : Time) (fieldOk : String → Bool)
    (db : DB) (ev : EventRow) (t : Time)
    (hnd : (db.events.map EventRow.id).Nodup)
    (hmem : ev ∈ db.events) (ht : ev.when_utc = some t) (hcron : ev.cron = none) :
    jobCount (schedule_loaded_jobs now fieldOk db []) (JobId.event ev.id) =
      if now < t then 1 else 0 := by
  unfold schedule_loaded_jobs
  rw [jobCount_remLoop_frame _ _ _ _ (fun r _ hk => JobId.noConfusion hk),
    jobCount_cronLoop_event_of_none fieldOk db.events _ ev hmem hnd hcron,
    jobCount_absLoop_event now db.events [] ev t hmem hnd ht]
  rfl

theorem C1_reconciliation_primary_job_witness :
    jobCount (schedule_loaded_jobs 0 (fun _ => true)
        ⟨[⟨1, 7, 8, "a", some 100, none, none, 3, 0, none, none⟩,
          ⟨2, 7, 8, "b", some (-5), none, none, 3, 0, none, none⟩], [], []⟩ [])
      (JobId.event 1) = 1 ∧
    jobCount (schedule_loaded_jobs 0 (fun _ => true)
        ⟨[⟨1, 7, 8, "a", some 100, none, none, 3, 0, none, none⟩,
          ⟨2, 7, 8, "b", some (-5), none, none, 3, 0, none, none⟩], [], []⟩ [])
      (JobId.event 2) = 0 := by
  constructor
  · have h := C1_reconciliation_primary_job 0 (fun _ => true)
      ⟨[⟨1, 7, 8, "a", some 100, none, none, 3, 0, none, none⟩,
        ⟨2, 7, 8, "b", some (-5), none, none, 3, 0, none, none⟩], [], []⟩
      ⟨1, 7, 8, "a", some 100, none, none, 3, 0, none, none⟩ 100
      (by decide) (by decide) rfl rfl
    rw [if_pos (by decide)] at h
    exact h
  · have h := C1_reconciliation_primary_job 0 (fun _ => true)
      ⟨[⟨1, 7, 8, "a", some 100, none, none, 3, 0, none, none⟩,
        ⟨2, 7, 8, "b", some (-5), none, none, 3, 0, none, none⟩], [], []⟩
      ⟨2, 7, 8, "b", some (-5), none, none, 3, 0, none, none⟩ (-5)
      (by decide) (by decide) rfl rfl
    rw [if_neg (by decide)] at h
    exact h

/-! ### Claim C9 -/

/-- Claim C9: during reconciliation an event whose stored cron expression
is malformed (wrong field count or a field apscheduler rejects, i.e.
`cronParse` fails) is merely skipped — the total function
`schedule_loaded_jobs` never raises — and every other stored cron item is
still installed: quantifying over an arbitrary store `db` (which may
contain any number of bad rows), each cron row gets its job exactly when
its own expression parses. -/
theorem C9_bad_cron_skipped_others_installed (now : Time) (fieldOk : String → Bool)
    (db : DB) (ev : EventRow) (fields : List String)
    (hnd : (db.events.map EventRow.id).Nodup)
    (hmem : ev ∈ db.events) (hw : ev.when_utc = none) (hc : ev.cron = some fields) :
    jobCount (schedule_loaded_jobs now fieldOk db []) (JobId.event ev.id) =
      if (cronParse fieldOk fields).isSome then 1 else 0 := by
  unfold schedule_loaded_jobs
  rw [jobCount_remLoop_frame _ _ _ _ (fun r _ hk => JobId.noConfusion hk),
    jobCount_cronLoop_event fieldOk db.events _ ev fields hmem hnd hc,
    jobCount_absLoop_event_of_none now db.events [] ev hmem hnd hw]
  rfl

theorem C9_bad_cron_skipped_others_installed_witness :
    jobCount (schedule_loaded_jobs 0 (fun _ => true)
        ⟨[⟨1, 7, 8, "bad", none, some ["*", "*", "*", "*"], none, 3, 0, none, none⟩,
          ⟨2, 7, 8, "good", none, some ["0", "19", "*", "*", "TUE"], none, 3, 0, none, none⟩],
         [], []⟩ [])
      (JobId.event 2) = 1 ∧
    jobCount (schedule_loaded_jobs 0 (fun _ => true)
        ⟨[⟨1, 7, 8, "bad", none, some ["*", "*", "*", "*"], none, 3, 0, none, none⟩,
          ⟨2, 7, 8, "good", none, some ["0", "19", "*", "*", "TUE"], none, 3, 0, none, none⟩],
         [], []⟩ [])
      (JobId.event 1) = 0 := by
  constructor
  · have h := C9_bad_cron_skipped_others_installed 0 (fun _ => true)
      ⟨[⟨1, 7, 8, "bad", none, some ["*", "*", "*", "*"], none, 3, 0, none, none⟩,
        ⟨2, 7, 8, "good", none, some ["0", "19", "*", "*", "TUE"], none, 3, 0, none, none⟩],
       [], []⟩
      ⟨2, 7, 8, "good", none, some ["0", "19", "*", "*", "TUE"], none, 3, 0, none, none⟩
      ["0", "19", "*", "*", "TUE"] (by decide) (by decide) rfl rfl
    rw [if_pos (by decide)] at h
    exact h
  · have h := C9_bad_cron_skipped_others_installed 0 (fun _ => true)
      ⟨[⟨1, 7, 8, "bad", none, some ["*", "*", "*", "*"], none, 3, 0, none, none⟩,
        ⟨2, 7, 8, "good", none, some ["0", "19", "*", "*", "TUE"], none, 3, 0, none, none⟩],
       [], []⟩
      ⟨1, 7, 8, "bad", none, some ["*", "*", "*", "*"], none, 3, 0, none, none⟩
      ["*", "*", "*", "*"] (by decide) (by decide) rfl rfl
    rw [if_neg (by decide)] at h
    exact h

/-! ### Claim C2 -/

/-- Claim C2: for an event with an Absolute instant `t` and a stored
lead-offset list, both at reconciliation time (first conjunct, over the
freshly started scheduler) and at creation time (second conjunct, over
any scheduler holding no lead job for the fresh id): for each distinct
positive offset `m` (i.e. `m ∈ parseLeadMinutes xs`) with `t - m`
strictly greater than `now`, exactly one derived lead job exists under
`JobId.eventLead id m` (the key `"event:{id}:lead:{m}"`); for every
other offset — in particular one whose lead instant equals `now`
exactly — no lead job exists. -/
theorem C2_lead_jobs_strictly_future :
    (∀ (now : Time) (fieldOk : String → Bool) (db : DB) (ev : EventRow)
        (t : Time) (xs : List Int) (m : Int),
        (db.events.map EventRow.id).Nodup → ev ∈ db.events →
        ev.when_utc = some t → ev.lead_minutes = some xs →
        jobCount (schedule_loaded_jobs now fieldOk db []) (JobId.eventLead ev.id m) =
          if m ∈ parseLeadMinutes xs ∧ now < t - m then 1 else 0) ∧
    (∀ (now : Time) (fieldOk : String → Bool) (g c u : Nat) (ti : String)
        (role : Option Nat) (t : Time) (cronArg : Option (List String))
        (xs : List Int) (msgId : Nat) (db : DB) (tbl : JobTable) (m : Int),
        (∀ m', jobCount tbl (JobId.eventLead (nextEventId db) m') = 0) →
        jobCount
            (event_create now fieldOk g c u ti role (some (some t)) cronArg
              (some (some xs)) msgId db tbl).2.2
            (JobId.eventLead (nextEventId db) m) =
          if m ∈ parseLeadMinutes xs ∧ now < t - m then 1 else 0) := by
  constructor
  · intro now fieldOk db ev t xs m hnd hmem ht hx
    unfold schedule_loaded_jobs
    rw [jobCount_remLoop_frame _ _ _ _ (fun r _ hk => JobId.noConfusion hk),
      jobCount_cronLoop_frame _ _ _ _ (fun ev' _ hk => JobId.noConfusion hk),
      jobCount_absLoop_lead now db.events [] ev t m hmem hnd ht]
    unfold leadsOf
    rw [hx]
    rfl
  · intro now fieldOk g c u ti role t cronArg xs msgId db tbl m hclean
    show jobCount
      (event_create_afterWhen now fieldOk g c u ti role (some t) cronArg
        (some (some xs)) msgId db tbl).2.2 _ = _
    unfold event_create_afterWhen event_create_afterLead
    simp only
    rw [jobCount_scheduleLeadJobs_self _ _ _ _ _ _ _ _ _ _ (parseLeadMinutes_nodup xs),
      jobCount_add_job_ne _ _ _ _ (fun hk => JobId.noConfusion hk), hclean m]

theorem C2_lead_jobs_strictly_future_witness :
    jobCount (schedule_loaded_jobs 0 (fun _ => true)
        ⟨[⟨1, 7, 8, "raid", some 60, none, none, 3, 0, some [60, 10], none⟩], [], []⟩ [])
      (JobId.eventLead 1 10) = 1 ∧
    jobCount (schedule_loaded_jobs 0 (fun _ => true)
        ⟨[⟨1, 7, 8, "raid", some 60, none, none, 3, 0, some [60, 10], none⟩], [], []⟩ [])
      (JobId.eventLead 1 60) = 0 ∧
    jobCount (event_create 0 (fun _ => true) 7 8 3 "raid" none (some (some 60)) none
        (some (some [60, 10])) 9 ⟨[], [], []⟩ []).2.2 (JobId.eventLead 1 10) = 1 ∧
    jobCount (event_create 0 (fun _ => true) 7 8 3 "raid" none (some (some 60)) none
        (some (some [60, 10])) 9 ⟨[], [], []⟩ []).2.2 (JobId.eventLead 1 60) = 0 := by
  refine ⟨?_, ?_, ?_, ?_⟩
  · have h := C2_lead_jobs_strictly_future.1 0 (fun _ => true)
      ⟨[⟨1, 7, 8, "raid", some 60, none, none, 3, 0, some [60, 10], none⟩], [], []⟩
      ⟨1, 7, 8, "raid", some 60, none, none, 3, 0, some [60, 10], none⟩
      60 [60, 10] 10 (by decide) (by decide) rfl rfl
    rw [if_pos (by decide)] at h
    exact h
  · have h := C2_lead_jobs_strictly_future.1 0 (fun _ => true)
      ⟨[⟨1, 7, 8, "raid", some 60, none, none, 3, 0, some [60, 10], none⟩], [], []⟩
      ⟨1, 7, 8, "raid", some 60, none, none, 3, 0, some [60, 10], none⟩
      60 [60, 10] 60 (by decide) (by decide) rfl rfl
    rw [if_neg (by decide)] at h
    exact h
  · have h := C2_lead_jobs_strictly_future.2 0 (fun _ => true) 7 8 3 "raid"
      none 60 none [60, 10] 9 ⟨[], [], []⟩ [] 10 (fun m' => rfl)
    rw [if_pos (by decide)] at h
    exact h
  · have h := C2_lead_jobs_strictly_future.2 0 (fun _ => true) 7 8 3 "raid"
      none 60 none [60, 10] 9 ⟨[], [], []⟩ [] 60 (fun m' => rfl)
    rw [if_neg (by decide)] at h
    exact h

/-! ### Claim C3 -/

/-- Claim C3 counterexample: creating an event with the four-field cron
expression `"* * * *"` on an empty store does surface the
schedule-validation error (`badCron`) synchronously, but the events
table is NOT unchanged — the failed creation leaves one persisted row
carrying that cron text, because `event_create` runs the `INSERT` and
commits before it ever validates the cron expression. -/
theorem C3_counterexample :
    (event_create 0 (fun _ => true) 1 2 3 "weekly" none none
        (some ["*", "*", "*", "*"]) none 9 ⟨[], [], []⟩ []).1 = CreateResult.badCron ∧
    (event_create 0 (fun _ => true) 1 2 3 "weekly" none none
        (some ["*", "*", "*", "*"]) none 9 ⟨[], [], []⟩ []).2.1.events =
      [⟨1, 1, 2, "weekly", none, some ["*", "*", "*", "*"], none, 3, 0, none, none⟩] := by
  constructor
  · rfl
  · rfl

/-- Claim C3 (amended): creating an event with a malformed cron
expression (any expression `cronParse` rejects, e.g. the four-field
`"* * * *"`) fails with a schedule-validation error surfaced
synchronously to the caller and installs no job, but the item IS
persisted: the failed creation appends to the events table the new row
holding the malformed cron text (the `INSERT` precedes validation). -/
theorem C3_bad_cron_error_but_row_persisted (now : Time) (fieldOk : String → Bool)
    (g c u : Nat) (ti : String) (role : Option Nat) (fs : List String)
    (msgId : Nat) (db : DB) (tbl : JobTable)
    (h : cronParse fieldOk fs = none) :
    event_create now fieldOk g c u ti role none (some fs) none msgId db tbl =
      (CreateResult.badCron,
       { db with events := db.events ++
          [⟨nextEventId db, g, c, ti, none, some fs, role, u, now, none, none⟩] },
       tbl) := by
  simp only [event_create, event_create_afterWhen, event_create_afterLead,
    Option.isNone_none, Option.isNone_some, Bool.true_and, Bool.false_and,
    Bool.and_false, if_false, h, List.isEmpty_nil, if_true]
  rfl

theorem C3_bad_cron_error_but_row_persisted_witness :
    event_create 0 (fun _ => true) 1 2 3 "weekly" none none
        (some ["*", "*", "*", "*"]) none 9 ⟨[], [], []⟩ [] =
      (CreateResult.badCron,
       ⟨[⟨1, 1, 2, "weekly", none, some ["*", "*", "*", "*"], none, 3, 0, none, none⟩],
        [], []⟩,
       []) := by
  have h := C3_bad_cron_error_but_row_persisted 0 (fun _ => true) 1 2 3 "weekly"
    none ["*", "*", "*", "*"] 9 ⟨[], [], []⟩ [] rfl
  simpa using h

/-! ### Claim C4 -/

/-- Claim C4 counterexample: a fire of an existing channel reminder whose
`channel.send` raises (e.g. missing permissions) makes `send_reminder`
propagate the exception — the coroutine exits before its `DELETE`
statement, so the durable store keeps the row: the claim that the row is
absent after any fire "regardless of delivery outcome" is false at this
input. -/
theorem C4_counterexample :
    send_reminder ⟨true, true, false, true, false⟩
        ⟨[], [⟨1, some 7, some 8, 3, "standup", 5, none, 0⟩], []⟩ 1 =
      Except.error DeliveryError.unavailable ∧
    (DB.reminders ⟨[], [⟨1, some 7, some 8, 3, "standup", 5, none, 0⟩], []⟩).countP
        (fun r => r.id == 1) = 1 := by
  constructor
  · rfl
  · rfl

/-- Claim C4 (amended): when a one-shot reminder fires, `send_reminder`
deletes its durable row after the delivery attempt provided no Discord
call raises — in particular a silently unresolvable channel still leads
to deletion — and a fire of an already-absent row is a benign no-op;
but a raising delivery call (`channel.send` with a resolvable channel)
propagates before the `DELETE`, so a delivery exception DOES block the
deletion, leaving the row in place. -/
theorem C4_row_deleted_only_when_no_raise (env : DeliveryEnv) (db : DB) (remId : Nat) :
    (db.reminders.find? (fun r => r.id == remId) = none →
      send_reminder env db remId = .ok db) ∧
    (∀ db', send_reminder env db remId = .ok db' →
      ∀ r ∈ db'.reminders, r.id ≠ remId) ∧
    (∀ r, db.reminders.find? (fun r => r.id == remId) = some r →
      r.channel_id.isSome = true → r.guild_id.isSome = true →
      env.channelResolvable = true → env.channelSendRaises = true →
      send_reminder env db remId = .error .unavailable) := by
  refine ⟨?_, ?_, ?_⟩
  · intro h
    unfold send_reminder
    rw [h]
  · intro db' hok r hr
    unfold send_reminder at hok
    cases hf : db.reminders.find? (fun r => r.id == remId) with
    | none =>
      rw [hf] at hok
      injection hok with hdb
      subst hdb
      have := List.find?_eq_none.mp hf r hr
      simpa using this
    | some r0 =>
      rw [hf] at hok
      dsimp only at hok
      cases hA : reminderDeliveryAttempt env r0 with
      | error e => rw [hA] at hok; cases hok
      | ok u =>
        rw [hA] at hok
        injection hok with hdb
        subst hdb
        have hmem : r ∈ db.reminders.filter (fun r => r.id != remId) := hr
        have := (List.mem_filter.mp hmem).2
        simpa using this
  · intro r hf hch hg hres hraise
    unfold send_reminder
    rw [hf]
    have hA : reminderDeliveryAttempt env r = .error .unavailable := by
      unfold reminderDeliveryAttempt
      rw [hch, hg, hres, hraise]
      simp
    dsimp only
    rw [hA]

theorem C4_row_deleted_only_when_no_raise_witness :
    send_reminder ⟨false, false, false, true, false⟩
        ⟨[], [⟨1, some 7, some 8, 3, "standup", 5, none, 0⟩], []⟩ 1 =
      Except.ok ⟨[], [], []⟩ ∧
    send_reminder ⟨true, true, false, true, false⟩
        ⟨[], [⟨1, some 7, some 8, 3, "standup", 5, none, 0⟩], []⟩ 1 =
      Except.error DeliveryError.unavailable := by
  refine ⟨rfl, ?_⟩
  exact (C4_row_deleted_only_when_no_raise ⟨true, true, false, true, false⟩
      ⟨[], [⟨1, some 7, some 8, 3, "standup", 5, none, 0⟩], []⟩ 1).2.2
    ⟨1, some 7, some 8, 3, "standup", 5, none, 0⟩ rfl rfl rfl rfl rfl

/-! ### RSVP upsert lemmas -/

theorem rsvpKeyCount_upsert_self (now : Time) (db : DB) (e u : Nat) (s : String)
    (hu : RsvpUnique db) :
    rsvpKeyCount (upsert_rsvp now db e u s) e u = 1 := by
  unfold rsvpKeyCount upsert_rsvp
  by_cases h : db.rsvps.any (fun r => r.event_id == e && r.user_id == u) = true
  · rw [if_pos h]
    simp only [List.countP_map]
    have hcongr : (db.rsvps.countP ((fun r => r.event_id == e && r.user_id == u) ∘
        (fun r => if r.event_id == e && r.user_id == u then
          { r with status := s, updated_at := now } else r))) =
        db.rsvps.countP (fun r => r.event_id == e && r.user_id == u) := by
      apply List.countP_congr
      intro r _
      by_cases hp : (r.event_id == e && r.user_id == u) = true
      · simp [Function.comp, hp]
      · simp [Function.comp, hp]
    rw [hcongr]
    have hpos : 0 < db.rsvps.countP (fun r => r.event_id == e && r.user_id == u) := by
      rw [List.countP_pos_iff]
      obtain ⟨r, hr, hp⟩ := List.any_eq_true.mp h
      exact ⟨r, hr, hp⟩
    have hle := hu e u
    unfold rsvpKeyCount at hle
    omega
  · rw [if_neg h]
    have hzero : db.rsvps.countP (fun r => r.event_id == e && r.user_id == u) = 0 := by
      rw [List.countP_eq_zero]
      intro r hr hp
      exact h (List.any_eq_true.mpr ⟨r, hr, hp⟩)
    simp [List.countP_append, hzero]

theorem rsvpKeyCount_upsert_ne (now : Time) (db : DB) (e u : Nat) (s : String)
    (e' u' : Nat) (h : ¬(e' = e ∧ u' = u)) :
    rsvpKeyCount (upsert_rsvp now db e u s) e' u' = rsvpKeyCount db e' u' := by
  unfold rsvpKeyCount upsert_rsvp
  by_cases hb : db.rsvps.any (fun r => r.event_id == e && r.user_id == u) = true
  · rw [if_pos hb]
    simp only [List.countP_map]
    apply List.countP_congr
    intro r _
    by_cases hp : (r.event_id == e && r.user_id == u) = true
    · simp [Function.comp, hp]
    · simp [Function.comp, hp]
  · rw [if_neg hb]
    rw [List.countP_append]
    have hsingle : List.countP (fun r => r.event_id == e' && r.user_id == u')
        [({ event_id := e, user_id := u, status := s, updated_at := now } : RSVPRow)] = 0 := by
      simp only [List.countP_cons, List.countP_nil]
      have : ((e == e') && (u == u')) = false := by
        rcases not_and_or.mp h with hne | hne
        · simp [beq_eq_false_iff_ne, Ne.symm hne]
        · cases hb2 : (e == e') <;> simp [beq_eq_false_iff_ne, Ne.symm hne]
      simpa using this
    rw [hsingle]
    omega

theorem upsert_rsvp_status (now : Time) (db : DB) (e u : Nat) (s : String) :
    ∀ r ∈ (upsert_rsvp now db e u s).rsvps,
      r.event_id = e → r.user_id = u → r.status = s := by
  unfold upsert_rsvp
  by_cases hb : db.rsvps.any (fun r => r.event_id == e && r.user_id == u) = true
  · rw [if_pos hb]
    intro r hr he hu
    obtain ⟨r0, hr0, himg⟩ := List.mem_map.mp hr
    by_cases hp : (r0.event_id == e && r0.user_id == u) = true
    · rw [if_pos hp] at himg
      rw [← himg]
    · rw [if_neg hp] at himg
      subst himg
      exact absurd (by simp [he, hu]) hp
  · rw [if_neg hb]
    intro r hr he hu
    rcases List.mem_append.mp hr with hold | hnew
    · exact absurd (List.any_eq_true.mpr ⟨r, hold, by simp [he, hu]⟩) hb
    · rw [List.mem_singleton.mp hnew]

theorem RsvpUnique_upsert (now : Time) (db : DB) (e u : Nat) (s : String)
    (hu : RsvpUnique db) : RsvpUnique (upsert_rsvp now db e u s) := by
  intro e' u'
  by_cases h : e' = e ∧ u' = u
  · rcases h with ⟨he, hu'⟩
    subst he; subst hu'
    rw [rsvpKeyCount_upsert_self now db e' u' s hu]
  · rw [rsvpKeyCount_upsert_ne now db e u s e' u' h]
    exact hu e' u'

/-! ### Claim C5 -/

/-- Claim C5 (code-bug evaluation): `RSVPView._set_status` durably
records the vote (the upsert commits first), but the announced re-render
never happens: the source calls `update_announcement_message(self.event_id)`
with one argument while the function requires `(event_id, message)`, so
every button press raises `TypeError` right after the commit; moreover
even a correctly invoked `update_announcement_message` raises `NameError`
(it references the undefined `get_rsvp_counts`) whenever the event row
exists — it never reads the stored `message_id` nor edits the message,
and never "skips" based on the message reference as the claim states. -/
theorem C5_vote_recorded_but_rerender_crashes :
    (∀ (now : Time) (db : DB) (e u : Nat) (s : String),
      set_status now db e u s =
        (upsert_rsvp now db e u s, some PyError.typeErrorMissingArg)) ∧
    (∀ (now : Time) (db : DB) (e u : Nat) (s : String),
      ∃ r ∈ (set_status now db e u s).1.rsvps,
        r.event_id = e ∧ r.user_id = u ∧ r.status = s) ∧
    (∀ (db : DB) (e msg : Nat) (ev : EventRow),
      db.events.find? (fun x => x.id == e) = some ev →
      update_announcement_message db e msg = .error PyError.nameErrorGetRsvpCounts) := by
  refine ⟨fun _ _ _ _ _ => rfl, ?_, ?_⟩
  · intro now db e u s
    show ∃ r ∈ (upsert_rsvp now db e u s).rsvps, _
    unfold upsert_rsvp
    by_cases hb : db.rsvps.any (fun r => r.event_id == e && r.user_id == u) = true
    · rw [if_pos hb]
      obtain ⟨r0, hr0, hp⟩ := List.any_eq_true.mp hb
      refine ⟨_, List.mem_map_of_mem _ hr0, ?_⟩
      rw [if_pos hp]
      simp only [Bool.and_eq_true, beq_iff_eq] at hp
      exact ⟨hp.1, hp.2, rfl⟩
    · rw [if_neg hb]
      exact ⟨_, List.mem_append_right _ (List.mem_singleton_self _), rfl, rfl, rfl⟩
  · intro db e msg ev hf
    unfold update_announcement_message
    rw [hf]

theorem C5_vote_recorded_but_rerender_crashes_witness :
    set_status 5 ⟨[], [], []⟩ 1 2 "going" =
      (⟨[], [], [⟨1, 2, "going", 5⟩]⟩, some PyError.typeErrorMissingArg) ∧
    update_announcement_message
        ⟨[⟨1, 7, 8, "t", some 60, none, none, 3, 0, none, some 42⟩], [], []⟩ 1 42 =
      Except.error PyError.nameErrorGetRsvpCounts := by
  constructor
  · exact (C5_vote_recorded_but_rerender_crashes.1 5 ⟨[], [], []⟩ 1 2 "going").trans (by rfl)
  · exact C5_vote_recorded_but_rerender_crashes.2.2
      ⟨[⟨1, 7, 8, "t", some 60, none, none, 3, 0, none, some 42⟩], [], []⟩ 1 42
      ⟨1, 7, 8, "t", some 60, none, none, 3, 0, none, some 42⟩ rfl

/-! ### Claim C7 -/

/-- Claim C7: RSVP voting has upsert semantics.  Starting from any store
satisfying the `(event_id, user_id)` primary-key invariant: a single
`setStatus` leaves exactly one record for the pair (a repeat vote
overwrites, never duplicates), the invariant is preserved, and calling
`setStatus` twice with the same `(item, user, status)` leaves exactly
one record for that pair, whose status is the voted status. -/
theorem C7_rsvp_upsert_idempotent (now1 now2 : Time) (db : DB) (e u : Nat)
    (s : String) (hu : RsvpUnique db) :
    rsvpKeyCount ((set_status now1 db e u s).1) e u = 1 ∧
    RsvpUnique ((set_status now2 (set_status now1 db e u s).1 e u s).1) ∧
    rsvpKeyCount ((set_status now2 (set_status now1 db e u s).1 e u s).1) e u = 1 ∧
    (∀ r ∈ ((set_status now2 (set_status now1 db e u s).1 e u s).1).rsvps,
      r.event_id = e → r.user_id = u → r.status = s) := by
  have hu1 : RsvpUnique ((set_status now1 db e u s).1) :=
    RsvpUnique_upsert now1 db e u s hu
  refine ⟨rsvpKeyCount_upsert_self now1 db e u s hu,
    RsvpUnique_upsert now2 _ e u s hu1,
    rsvpKeyCount_upsert_self now2 _ e u s hu1,
    upsert_rsvp_status now2 _ e u s⟩

theorem C7_rsvp_upsert_idempotent_witness :
    rsvpKeyCount ((set_status 1 ⟨[], [], [⟨5, 9, "maybe", 0⟩]⟩ 5 9 "going").1) 5 9 = 1 ∧
    rsvpKeyCount
        ((set_status 2 (set_status 1 ⟨[], [], [⟨5, 9, "maybe", 0⟩]⟩ 5 9 "going").1
          5 9 "going").1) 5 9 = 1 := by
  have hu : RsvpUnique ⟨[], [], [⟨5, 9, "maybe", 0⟩]⟩ := by
    intro e' u'
    unfold rsvpKeyCount
    simp only [List.countP_cons, List.countP_nil]
    split <;> simp
  have h := C7_rsvp_upsert_idempotent 1 2 ⟨[], [], [⟨5, 9, "maybe", 0⟩]⟩ 5 9 "going" hu
  exact ⟨h.1, h.2.2.1⟩

/-! ### Delete-path lemmas -/

theorem find?_event_scoped (rows : List EventRow) (ev : EventRow) (gid : Nat)
    (hnd : (rows.map EventRow.id).Nodup) (hmem : ev ∈ rows) (hg : ev.guild_id = gid) :
    rows.find? (fun e => e.id == ev.id && e.guild_id == gid) = some ev := by
  induction rows with
  | nil => cases hmem
  | cons r rest ih =>
    rw [List.map_cons, List.nodup_cons] at hnd
    by_cases hp : (r.id == ev.id && r.guild_id == gid) = true
    · simp only [List.find?, hp]
      simp only [Bool.and_eq_true, beq_iff_eq] at hp
      rcases List.mem_cons.mp hmem with heq | hmem'
      · rw [heq]
      · exact absurd (hp.1 ▸ List.mem_map_of_mem EventRow.id hmem') hnd.1
    · rw [Bool.not_eq_true] at hp
      simp only [List.find?, hp]
      rcases List.mem_cons.mp hmem with heq | hmem'
      · subst heq
        rw [hg] at hp
        simp at hp
      · exact ih hnd.2 hmem'

theorem jobCount_removeLeadFold_le (ms : List Int) (i : Nat) (tbl : JobTable)
    (k : JobId) :
    jobCount (ms.foldl (fun t m => tryRemoveJob t (JobId.eventLead i m)) tbl) k ≤
      jobCount tbl k := by
  induction ms generalizing tbl with
  | nil => exact Nat.le_refl _
  | cons x rest ih =>
    rw [List.foldl_cons]
    exact Nat.le_trans (ih _) (jobCount_tryRemoveJob_le _ _ _)

theorem jobCount_removeLeadFold_of_mem (ms : List Int) (i : Nat) (tbl : JobTable)
    (m : Int) (hm : m ∈ ms) :
    jobCount (ms.foldl (fun t x => tryRemoveJob t (JobId.eventLead i x)) tbl)
      (JobId.eventLead i m) = 0 := by
  induction ms generalizing tbl with
  | nil => cases hm
  | cons x rest ih =>
    rw [List.foldl_cons]
    rcases List.mem_cons.mp hm with heq | hmem'
    · subst heq
      have h0 := jobCount_tryRemoveJob_self tbl (JobId.eventLead i m)
      have hle := jobCount_removeLeadFold_le rest i
        (tryRemoveJob tbl (JobId.eventLead i m)) (JobId.eventLead i m)
      omega
    · exact ih _ hmem'

/-! ### Claim C8 -/

/-- Claim C8: deleting an event (invoked from its own guild) cancels
every job derived from it — the primary key `event:{id}` and every lead
key `event:{id}:lead:{m}` for each `m` in its stored lead-offset list —
so after `event_delete` none of those ids remains in the scheduler and a
subsequent fire of any of them is impossible; and cancellation is
best-effort: the scheduler's prior contents (in particular the absence
of any of those job ids) never change the command's reply or its effect
on the store. -/
theorem C8_event_delete_cancels_jobs (gid : Nat) (db : DB) (tbl : JobTable)
    (ev : EventRow) (hnd : (db.events.map EventRow.id).Nodup)
    (hmem : ev ∈ db.events) (hg : ev.guild_id = gid) :
    jobCount (event_delete gid db tbl ev.id).2.2 (JobId.event ev.id) = 0 ∧
    (∀ xs, ev.lead_minutes = some xs → ∀ m ∈ xs,
      jobCount (event_delete gid db tbl ev.id).2.2 (JobId.eventLead ev.id m) = 0) ∧
    (event_delete gid db tbl ev.id).1 = DeleteResult.deleted ∧
    (∀ tbl' : JobTable,
      (event_delete gid db tbl' ev.id).1 = (event_delete gid db tbl ev.id).1 ∧
      (event_delete gid db tbl' ev.id).2.1 = (event_delete gid db tbl ev.id).2.1) := by
  have hfind := find?_event_scoped db.events ev gid hnd hmem hg
  have htbl : (event_delete gid db tbl ev.id).2.2 =
      match ev.lead_minutes with
      | some xs => xs.dedup.foldl (fun t m => tryRemoveJob t (JobId.eventLead ev.id m))
          (tryRemoveJob tbl (JobId.event ev.id))
      | none => tryRemoveJob tbl (JobId.event ev.id) := by
    unfold event_delete
    rw [hfind]
  have hmatched : db.events.any (fun e => e.id == ev.id && e.guild_id == gid) = true :=
    List.any_eq_true.mpr ⟨ev, hmem, by simp [hg]⟩
  refine ⟨?_, ?_, ?_, fun tbl' => ⟨rfl, rfl⟩⟩
  · rw [htbl]
    cases hx : ev.lead_minutes with
    | none => exact jobCount_tryRemoveJob_self _ _
    | some xs =>
      dsimp only
      have h0 := jobCount_tryRemoveJob_self tbl (JobId.event ev.id)
      have hle := jobCount_removeLeadFold_le xs.dedup ev.id
        (tryRemoveJob tbl (JobId.event ev.id)) (JobId.event ev.id)
      omega
  · intro xs hx m hm
    rw [htbl, hx]
    dsimp only
    exact jobCount_removeLeadFold_of_mem _ _ _ _ (List.mem_dedup.mpr hm)
  · show (if db.events.any (fun e => e.id == ev.id && e.guild_id == gid) then
        DeleteResult.deleted else DeleteResult.notFound) = DeleteResult.deleted
    rw [hmatched]
    rfl

theorem C8_event_delete_cancels_jobs_witness :
    jobCount (event_delete 7
        ⟨[⟨1, 7, 8, "raid", some 60, none, none, 3, 0, some [60, 10], none⟩], [], []⟩
        (schedule_loaded_jobs 0 (fun _ => true)
          ⟨[⟨1, 7, 8, "raid", some 60, none, none, 3, 0, some [60, 10], none⟩], [], []⟩ [])
        1).2.2 (JobId.event 1) = 0 ∧
    jobCount (event_delete 7
        ⟨[⟨1, 7, 8, "raid", some 60, none, none, 3, 0, some [60, 10], none⟩], [], []⟩
        (schedule_loaded_jobs 0 (fun _ => true)
          ⟨[⟨1, 7, 8, "raid", some 60, none, none, 3, 0, some [60, 10], none⟩], [], []⟩ [])
        1).2.2 (JobId.eventLead 1 10) = 0 ∧
    (event_delete 7
        ⟨[⟨1, 7, 8, "raid", some 60, none, none, 3, 0, some [60, 10], none⟩], [], []⟩
        (schedule_loaded_jobs 0 (fun _ => true)
          ⟨[⟨1, 7, 8, "raid", some 60, none, none, 3, 0, some [60, 10], none⟩], [], []⟩ [])
        1).1 = DeleteResult.deleted := by
  have h := C8_event_delete_cancels_jobs 7
    ⟨[⟨1, 7, 8, "raid", some 60, none, none, 3, 0, some [60, 10], none⟩], [], []⟩
    (schedule_loaded_jobs 0 (fun _ => true)
      ⟨[⟨1, 7, 8, "raid", some 60, none, none, 3, 0, some [60, 10], none⟩], [], []⟩ [])
    ⟨1, 7, 8, "raid", some 60, none, none, 3, 0, some [60, 10], none⟩
    (by decide) (by decide) rfl
  exact ⟨h.1, h.2.1 [60, 10] rfl 10 (by decide), h.2.2.1⟩

/-! ### Claim C10 -/

/-- Claim C10: both delete commands are scope-checked against the durable
store.  If the target id exists but belongs to a different scope
(`event_delete` invoked from another guild, `remind_delete` invoked by
another user), the SQL `DELETE ... WHERE id=? AND scope=?` matches
nothing: every durable table is left exactly as it was and the caller is
told the item was not found.  (Positively, the `WHERE` clause means a
row is only ever removed when its stored scope equals the invoker's.) -/
theorem C10_delete_scope_checked :
    (∀ (gid : Nat) (db : DB) (tbl : JobTable) (ev : EventRow),
      (db.events.map EventRow.id).Nodup → ev ∈ db.events → ev.guild_id ≠ gid →
      (event_delete gid db tbl ev.id).1 = DeleteResult.notFound ∧
      (event_delete gid db tbl ev.id).2.1 = db) ∧
    (∀ (uid : Nat) (db : DB) (tbl : JobTable) (r : ReminderRow),
      (db.reminders.map ReminderRow.id).Nodup → r ∈ db.reminders → r.user_id ≠ uid →
      (remind_delete uid db tbl r.id).1 = DeleteResult.notFound ∧
      (remind_delete uid db tbl r.id).2.1 = db) := by
  constructor
  · intro gid db tbl ev hnd hmem hg
    have hpred : ∀ e ∈ db.events, (e.id == ev.id && e.guild_id == gid) = false := by
      intro e he
      by_contra hcon
      rw [Bool.not_eq_false, Bool.and_eq_true, beq_iff_eq, beq_iff_eq] at hcon
      have : e = ev := List.inj_on_of_nodup_map hnd he hmem hcon.1
      exact hg (this ▸ hcon.2)
    have hmatched : db.events.any (fun e => e.id == ev.id && e.guild_id == gid) = false := by
      rw [List.any_eq_false]
      intro e he
      simp [hpred e he]
    have hfilter : db.events.filter
        (fun e => !(e.id == ev.id && e.guild_id == gid)) = db.events := by
      rw [List.filter_eq_self]
      intro e he
      rw [hpred e he]
      rfl
    constructor
    · show (if db.events.any (fun e => e.id == ev.id && e.guild_id == gid) then
          DeleteResult.deleted else DeleteResult.notFound) = DeleteResult.notFound
      rw [hmatched]
      rfl
    · show ({ db with
          events := db.events.filter (fun e => !(e.id == ev.id && e.guild_id == gid)),
          rsvps := if db.events.any (fun e => e.id == ev.id && e.guild_id == gid) then
            db.rsvps.filter (fun r => r.event_id != ev.id) else db.rsvps } : DB) = db
      rw [hmatched, hfilter]
      rfl
  · intro uid db tbl r hnd hmem hu
    have hpred : ∀ x ∈ db.reminders, (x.id == r.id && x.user_id == uid) = false := by
      intro x hx
      by_contra hcon
      rw [Bool.not_eq_false, Bool.and_eq_true, beq_iff_eq, beq_iff_eq] at hcon
      have : x = r := List.inj_on_of_nodup_map hnd hx hmem hcon.1
      exact hu (this ▸ hcon.2)
    have hmatched : db.reminders.any (fun x => x.id == r.id && x.user_id == uid) = false := by
      rw [List.any_eq_false]
      intro x hx
      simp [hpred x hx]
    have hfilter : db.reminders.filter
        (fun x => !(x.id == r.id && x.user_id == uid)) = db.reminders := by
      rw [List.filter_eq_self]
      intro x hx
      rw [hpred x hx]
      rfl
    constructor
    · show (if db.reminders.any (fun x => x.id == r.id && x.user_id == uid) then
          DeleteResult.deleted else DeleteResult.notFound) = DeleteResult.notFound
      rw [hmatched]
      rfl
    · show ({ db with
          reminders := db.reminders.filter
            (fun x => !(x.id == r.id && x.user_id == uid)) } : DB) = db
      rw [hfilter]

theorem C10_delete_scope_checked_witness :
    (event_delete 5 ⟨[⟨1, 7, 8, "raid", some 60, none, none, 3, 0, none, none⟩],
        [], [⟨1, 2, "going", 0⟩]⟩ [] 1).1 = DeleteResult.notFound ∧
    (event_delete 5 ⟨[⟨1, 7, 8, "raid", some 60, none, none, 3, 0, none, none⟩],
        [], [⟨1, 2, "going", 0⟩]⟩ [] 1).2.1 =
      ⟨[⟨1, 7, 8, "raid", some 60, none, none, 3, 0, none, none⟩],
        [], [⟨1, 2, "going", 0⟩]⟩ ∧
    (remind_delete 5 ⟨[], [⟨1, some 7, some 8, 3, "standup", 60, none, 0⟩], []⟩ [] 1).1 =
      DeleteResult.notFound ∧
    (remind_delete 5 ⟨[], [⟨1, some 7, some 8, 3, "standup", 60, none, 0⟩], []⟩ [] 1).2.1 =
      ⟨[], [⟨1, some 7, some 8, 3, "standup", 60, none, 0⟩], []⟩ := by
  have h1 := C10_delete_scope_checked.1 5
    ⟨[⟨1, 7, 8, "raid", some 60, none, none, 3, 0, none, none⟩],
      [], [⟨1, 2, "going", 0⟩]⟩ []
    ⟨1, 7, 8, "raid", some 60, none, none, 3, 0, none, none⟩
    (by decide) (by decide) (by decide)
  have h2 := C10_delete_scope_checked.2 5
    ⟨[], [⟨1, some 7, some 8, 3, "standup", 60, none, 0⟩], []⟩ []
    ⟨1, some 7, some 8, 3, "standup", 60, none, 0⟩
    (by decide) (by decide) (by decide)
  exact ⟨h1.1, h1.2, h2.1, h2.2⟩

/-! ### Job-id uniqueness lemmas -/

theorem eventRow_msg_update_fields (e : EventRow) (evId msgId : Nat) :
    ((if e.id == evId then { e with message_id := some msgId } else e) : EventRow).when_utc
        = e.when_utc ∧
    ((if e.id == evId then { e with message_id := some msgId } else e) : EventRow).cron
        = e.cron := by
  split
  · exact ⟨rfl, rfl⟩
  · exact ⟨rfl, rfl⟩

theorem keysNodup_filter (tbl : JobTable) (q : JobId × Job → Bool)
    (h : keysNodup tbl) : keysNodup (tbl.filter q) := by
  unfold keysNodup at h ⊢
  exact List.Nodup.sublist ((tbl.filter_sublist).map Prod.fst) h

theorem keysNodup_add_job (tbl : JobTable) (jid : JobId) (j : Job)
    (h : keysNodup tbl) : keysNodup (add_job tbl jid j) := by
  unfold keysNodup add_job
  rw [List.map_append, List.nodup_append]
  refine ⟨keysNodup_filter tbl _ h, by simp, ?_⟩
  intro a ha hb
  obtain ⟨p, hp, hfp⟩ := List.mem_map.mp ha
  have hne := (List.mem_filter.mp hp).2
  rw [List.map_cons, List.map_nil, List.mem_singleton] at hb
  rw [hb] at hfp
  rw [hfp] at hne
  simp at hne

theorem keysNodup_scheduleLeadJobs (now : Time) (evId guildId channelId : Nat)
    (title : String) (roleId : Option Nat) (runDt : Time) (ms : List Int)
    (tbl : JobTable) (h : keysNodup tbl) :
    keysNodup (scheduleLeadJobs now evId guildId channelId title roleId runDt ms tbl) := by
  induction ms generalizing tbl with
  | nil => exact h
  | cons x rest ih =>
    unfold scheduleLeadJobs
    rw [List.foldl_cons]
    show keysNodup (scheduleLeadJobs now evId guildId channelId title roleId runDt rest _)
    apply ih
    split
    · exact keysNodup_add_job _ _ _ h
    · exact h

theorem keysNodup_scheduleAbsoluteRow (now : Time) (tbl : JobTable) (ev : EventRow)
    (h : keysNodup tbl) : keysNodup (scheduleAbsoluteRow now tbl ev) := by
  unfold scheduleAbsoluteRow
  cases ev.when_utc with
  | none => exact h
  | some runDt =>
    have hbase : keysNodup (if now < runDt then
        add_job tbl (JobId.event ev.id)
          ⟨.date runDt, .sendEvent ev.guild_id ev.channel_id ev.title ev.mention_role_id⟩
      else tbl) := by
      split
      · exact keysNodup_add_job _ _ _ h
      · exact h
    cases ev.lead_minutes with
    | none => exact hbase
    | some xs => exact keysNodup_scheduleLeadJobs _ _ _ _ _ _ _ _ _ hbase

theorem keysNodup_scheduleCronRow (fieldOk : String → Bool) (tbl : JobTable)
    (ev : EventRow) (h : keysNodup tbl) : keysNodup (scheduleCronRow fieldOk tbl ev) := by
  unfold scheduleCronRow
  cases hc : ev.cron with
  | none => exact h
  | some fields =>
    cases hp : cronParse fieldOk fields with
    | none =>
      simp only [hp]
      exact h
    | some spec =>
      simp only [hp]
      exact keysNodup_add_job _ _ _ h

theorem keysNodup_scheduleReminderRow (now : Time) (tbl : JobTable) (r : ReminderRow)
    (h : keysNodup tbl) : keysNodup (scheduleReminderRow now tbl r) := by
  unfold scheduleReminderRow
  split
  · exact keysNodup_add_job _ _ _ h
  · exact h

theorem keysNodup_foldl {α : Type} (f : JobTable → α → JobTable)
    (hf : ∀ tbl a, keysNodup tbl → keysNodup (f tbl a)) (l : List α)
    (tbl : JobTable) (h : keysNodup tbl) : keysNodup (l.foldl f tbl) := by
  induction l generalizing tbl with
  | nil => exact h
  | cons a rest ih => exact ih _ (hf tbl a h)

theorem keysNodup_schedule_loaded_jobs (now : Time) (fieldOk : String → Bool)
    (db : DB) (tbl : JobTable) (h : keysNodup tbl) :
    keysNodup (schedule_loaded_jobs now fieldOk db tbl) := by
  unfold schedule_loaded_jobs
  exact keysNodup_foldl _ (fun t r => keysNodup_scheduleReminderRow now t r) _ _
    (keysNodup_foldl _ (fun t e => keysNodup_scheduleCronRow fieldOk t e) _ _
      (keysNodup_foldl _ (fun t e => keysNodup_scheduleAbsoluteRow now t e) _ _ h))

/-! ### Claim C6 -/

/-- Claim C6 counterexample: `event_create` does not reject a request
carrying both a parseable `when` and a `cron` expression — on an empty
store it persists a reachable events row whose `when_utc` AND `cron`
are both non-null, violating the claimed exactly-one-of invariant. -/
theorem C6_counterexample :
    (event_create 0 (fun _ => true) 7 8 3 "t" none (some (some 100))
        (some ["0", "19", "*", "*", "TUE"]) none 9 ⟨[], [], []⟩ []).2.1.events.map
      (fun e => (e.when_utc, e.cron)) =
      [(some 100, some ["0", "19", "*", "*", "TUE"])] := by
  rfl

/-- Claim C6 (amended): the exactly-one-of `{when_utc, cron}` invariant
does NOT hold of every persisted row — creation accepts a request with
both a parseable `when` and a `cron` and persists a row with both
columns set (it only rejects when neither is given).  What survives of
the claim's consequence: jobs are installed with
`replace_existing=True`, so the scheduler never holds two jobs under one
id — reconciliation preserves key uniqueness, and for a both-set row
the cron loop's job replaces the date loop's job (last write wins), as
the final closed conjunct exhibits. -/
theorem C6_both_set_persisted_but_keys_unique :
    (∀ (now : Time) (fieldOk : String → Bool) (g c u : Nat) (ti : String)
        (role : Option Nat) (t : Time) (fs : List String) (msgId : Nat)
        (db : DB) (tbl : JobTable),
      ∃ row ∈ (event_create now fieldOk g c u ti role (some (some t)) (some fs)
          none msgId db tbl).2.1.events,
        row.when_utc = some t ∧ row.cron = some fs) ∧
    (∀ (now : Time) (fieldOk : String → Bool) (db : DB) (tbl : JobTable),
      keysNodup tbl → keysNodup (schedule_loaded_jobs now fieldOk db tbl)) ∧
    (schedule_loaded_jobs 0 (fun _ => true)
        ⟨[⟨1, 7, 8, "t", some 100, some ["0", "19", "*", "*", "TUE"], none, 3, 0,
          none, none⟩], [], []⟩ []).lookup (JobId.event 1) =
      some ⟨Trigger.cron ⟨"0", "19", "*", "*", "TUE"⟩,
        JobAction.sendEvent 7 8 "t" none⟩ := by
  refine ⟨?_, keysNodup_schedule_loaded_jobs, by rfl⟩
  intro now fieldOk g c u ti role t fs msgId db tbl
  simp only [event_create, event_create_afterWhen, event_create_afterLead,
    Option.isNone_some, Bool.false_and, Bool.and_false, if_false, List.isEmpty_nil]
  refine ⟨_, List.mem_map_of_mem _ (List.mem_append_right _ (List.mem_singleton_self _)),
    ?_, ?_⟩
  · exact (eventRow_msg_update_fields _ _ _).1
  · exact (eventRow_msg_update_fields _ _ _).2

theorem C6_both_set_persisted_but_keys_unique_witness :
    (∃ row ∈ (event_create 0 (fun _ => true) 7 8 3 "t" none (some (some 100))
        (some ["0", "19", "*", "*", "TUE"]) none 9 ⟨[], [], []⟩ []).2.1.events,
      row.when_utc = some 100 ∧ row.cron = some ["0", "19", "*", "*", "TUE"]) ∧
    keysNodup (schedule_loaded_jobs 0 (fun _ => true)
      ⟨[⟨1, 7, 8, "t", some 100, some ["0", "19", "*", "*", "TUE"], none, 3, 0,
        none, none⟩], [], []⟩ []) := by
  constructor
  · exact C6_both_set_persisted_but_keys_unique.1 0 (fun _ => true) 7 8 3 "t"
      none 100 ["0", "19", "*", "*", "TUE"] 9 ⟨[], [], []⟩ []
  · exact C6_both_set_persisted_but_keys_unique.2.1 0 (fun _ => true)
      ⟨[⟨1, 7, 8, "t", some 100, some ["0", "19", "*", "*", "TUE"], none, 3, 0,
        none, none⟩], [], []⟩ [] (by simp [keysNodup])

end Bot
